import Mathlib

/--
Shallow embedding of the blockchain core of this repository:
the files blockchain/transaction.py, blockchain/block.py,
blockchain/blockchain.py and blockchain/wallet.py.

Modeling conventions:
- hashlib.sha256(...).hexdigest() is embedded as a full executable SHA-256
  over byte lists (Nat below 256), producing the 64 character lowercase hex
  digest, with word arithmetic carried out on Nat modulo 2^32.
- json.dumps(..., sort_keys=True) is embedded by explicit serializers that
  emit the fields of each record in sorted key order with the default
  separators.  Python float formatting of numeric fields is abstracted by a
  fixed textual rendering; no claim depends on the exact numeral text, only
  on the serializers being deterministic functions of the record fields.
  String escaping is omitted: all strings reaching the hash boundary in the
  source are hex digests, addresses and enum tags.  Opaque data payloads
  (Dict[str, Any]) are modeled as an optional string holding their
  serialized form.
- The key/value store (plyvel) is embedded as an association list where a
  put prepends and a lookup takes the first match, which models overwrite;
  a lookup miss models the KeyError path of the source.
- The unbounded proof of work loop of Block.mine is embedded with an
  explicit fuel parameter; returning none models non termination within
  the given fuel.  Python module level name resolution is abstracted:
  names used by blockchain.py resolve to the sibling module definitions.
- Python float amounts are embedded as rationals; timestamps as Nat.
-/

-- ## SHA-256 over byte lists

def M32 : Nat := 4294967296

def add32 (a b : Nat) : Nat := (a + b) % M32

def rotr32 (n x : Nat) : Nat := ((x >>> n) ||| (x <<< (32 - n))) % M32

def not32 (x : Nat) : Nat := x ^^^ 4294967295

def bsig0 (x : Nat) : Nat := rotr32 2 x ^^^ rotr32 13 x ^^^ rotr32 22 x

def bsig1 (x : Nat) : Nat := rotr32 6 x ^^^ rotr32 11 x ^^^ rotr32 25 x

def ssig0 (x : Nat) : Nat := rotr32 7 x ^^^ rotr32 18 x ^^^ (x >>> 3)

def ssig1 (x : Nat) : Nat := rotr32 17 x ^^^ rotr32 19 x ^^^ (x >>> 10)

def chf (x y z : Nat) : Nat := (x &&& y) ^^^ (not32 x &&& z)

def majf (x y z : Nat) : Nat := (x &&& y) ^^^ (x &&& z) ^^^ (y &&& z)

def shaK : List Nat :=
  [
    1116352408, 1899447441, 3049323471, 3921009573, 961987163, 1508970993,
    2453635748, 2870763221, 3624381080, 310598401, 607225278, 1426881987,
    1925078388, 2162078206, 2614888103, 3248222580, 3835390401, 4022224774,
    264347078, 604807628, 770255983, 1249150122, 1555081692, 1996064986,
    2554220882, 2821834349, 2952996808, 3210313671, 3336571891, 3584528711,
    113926993, 338241895, 666307205, 773529912, 1294757372, 1396182291,
    1695183700, 1986661051, 2177026350, 2456956037, 2730485921, 2820302411,
    3259730800, 3345764771, 3516065817, 3600352804, 4094571909, 275423344,
    430227734, 506948616, 659060556, 883997877, 958139571, 1322822218,
    1537002063, 1747873779, 1955562222, 2024104815, 2227730452, 2361852424,
    2428436474, 2756734187, 3204031479, 3329325298 ]

def shaH0 : List Nat :=
  [ 1779033703, 3144134277, 1013904242, 2773480762,
    1359893119, 2600822924, 528734635, 1541459225 ]

def bytesBE : Nat → Nat → List Nat
  | 0, _ => []
  | k + 1, v => bytesBE k (v >>> 8) ++ [ v &&& 255 ]

def padMsg (msg : List Nat) : List Nat :=
  msg ++ [ 128 ] ++ List.replicate ((119 - (msg.length % 64)) % 64) 0 ++ bytesBE 8 (msg.length * 8)

def wordsOf : List Nat → List Nat
  | b0 :: b1 :: b2 :: b3 :: rest => (((b0 * 256 + b1) * 256 + b2) * 256 + b3) :: wordsOf rest
  | _ => []

def chunks16 : Nat → List Nat → List (List Nat)
  | 0, _ => []
  | f + 1, ws =>
    match ws with
    | [] => []
    | w :: tl => (w :: tl).take 16 :: chunks16 f ((w :: tl).drop 16)

def schedExt : Nat → List Nat → List Nat
  | 0, acc => acc
  | n + 1, acc =>
    schedExt n
      (add32 (add32 (ssig1 (acc.getD 1 0)) (acc.getD 6 0))
             (add32 (ssig0 (acc.getD 14 0)) (acc.getD 15 0)) :: acc)

def scheduleOf (ws16 : List Nat) : List Nat := (schedExt 48 ws16.reverse).reverse

def roundStep (st : List Nat) (kw : Nat) : List Nat :=
  let a := st.getD 0 0
  let b := st.getD 1 0
  let c := st.getD 2 0
  let d := st.getD 3 0
  let e := st.getD 4 0
  let f := st.getD 5 0
  let g := st.getD 6 0
  let h := st.getD 7 0
  let t1 := add32 h (add32 (bsig1 e) (add32 (chf e f g) kw))
  let t2 := add32 (bsig0 a) (majf a b c)
  [ add32 t1 t2, a, b, c, add32 d t1, e, f, g ]

def roundsGo : List Nat → List Nat → List Nat
  | [], st => st
  | kw :: rest, st => roundsGo rest (roundStep st kw)

def compressChunk (hs ws16 : List Nat) : List Nat :=
  List.zipWith add32 hs (roundsGo (List.zipWith add32 shaK (scheduleOf ws16)) hs)

def processChunks : List (List Nat) → List Nat → List Nat
  | [], hs => hs
  | c :: cs, hs => processChunks cs (compressChunk hs c)

def sha256Words (msg : List Nat) : List Nat :=
  let ws := wordsOf (padMsg msg)
  processChunks (chunks16 (ws.length + 1) ws) shaH0

def hexChar (n : Nat) : Char := List.getD ( "0123456789abcdef" ).data n '0'

def word32ToHex (x : Nat) : List Char :=
  [ hexChar ((x >>> 28) &&& 15), hexChar ((x >>> 24) &&& 15),
    hexChar ((x >>> 20) &&& 15), hexChar ((x >>> 16) &&& 15),
    hexChar ((x >>> 12) &&& 15), hexChar ((x >>> 8) &&& 15),
    hexChar ((x >>> 4) &&& 15), hexChar (x &&& 15) ]

def strToBytes (s : String) : List Nat := s.data.map (fun c => c.toNat % 256)

def sha256hex (s : String) : String :=
  String.mk ((sha256Words (strToBytes s)).map word32ToHex).flatten

-- ## Canonical JSON rendering (json.dumps with sort_keys=True)

def joinComma : List String → String
  | [] => ""
  | x :: [] => x
  | x :: y :: ys => x ++ ", " ++ joinComma (y :: ys)

def jsonStr (s : String) : String := "\"" ++ s ++ "\""

def jsonOptStr : Option String → String
  | none => "null"
  | some s => jsonStr s

def jObj (fields : List String) : String := "\x7b" ++ joinComma fields ++ "\x7d"

def jArr (xs : List String) : String := "[" ++ joinComma xs ++ "]"

/-- Rendering of a Python float whose value is a whole-number timestamp. -/
def floatJson (n : Nat) : String := Nat.repr n ++ ".0"

/-- Rendering of a float amount; whole values render like Python floats,
other rationals by a fixed deterministic notation (abstraction of the float
repr, on which no claim depends). -/
def ratJson (q : Rat) : String :=
  if q.den = 1 then Int.repr q.num ++ ".0" else Int.repr q.num ++ "div" ++ Nat.repr q.den

-- ## transaction.py

/-- TransactionType(str, Enum) with members TRANSFER, MEMORY, FEEDBACK,
REWARD. -/
inductive TransactionType : Type where
  | TRANSFER : TransactionType
  | MEMORY : TransactionType
  | FEEDBACK : TransactionType
  | REWARD : TransactionType
deriving DecidableEq, Repr

def TransactionType.str : TransactionType → String
  | .TRANSFER => "TRANSFER"
  | .MEMORY => "MEMORY"
  | .FEEDBACK => "FEEDBACK"
  | .REWARD => "REWARD"

/-- TransactionInput: tx_id, output_index, signature. -/
structure TransactionInput : Type where
  tx_id : String
  output_index : Nat
  signature : String
deriving DecidableEq, Repr

/-- TransactionOutput: amount, address, optional data payload (the payload
is modeled by its serialized form). -/
structure TransactionOutput : Type where
  amount : Rat
  address : String
  data : Option String
deriving DecidableEq, Repr

/-- Transaction record; tx_id is the field value after construction (the
constructor of the source computes it when it is not supplied). -/
structure Transaction : Type where
  tx_id : String
  tx_type : TransactionType
  inputs : List TransactionInput
  outputs : List TransactionOutput
  timestamp : Nat
  sender_address : Option String
  signature : Option String
deriving DecidableEq, Repr

/-- dict() of a TransactionInput, keys in sorted order:
output_index, signature, tx_id. -/
def txInputJson (i : TransactionInput) : String :=
  jObj [ "\"output_index\": " ++ Nat.repr i.output_index,
         "\"signature\": " ++ jsonStr i.signature,
         "\"tx_id\": " ++ jsonStr i.tx_id ]

/-- dict() of a TransactionOutput, keys in sorted order:
address, amount, data. -/
def txOutputJson (o : TransactionOutput) : String :=
  jObj [ "\"address\": " ++ jsonStr o.address,
         "\"amount\": " ++ ratJson o.amount,
         "\"data\": " ++ jsonOptStr o.data ]

/-- Payload hashed by Transaction.compute_hash: json.dumps of the dict with
keys tx_type, inputs, outputs, timestamp, sender_address, emitted in sorted
key order (inputs, outputs, sender_address, timestamp, tx_type). -/
def txSignableJson (tx : Transaction) : String :=
  jObj [ "\"inputs\": " ++ jArr (tx.inputs.map txInputJson),
         "\"outputs\": " ++ jArr (tx.outputs.map txOutputJson),
         "\"sender_address\": " ++ jsonOptStr tx.sender_address,
         "\"timestamp\": " ++ floatJson tx.timestamp,
         "\"tx_type\": " ++ jsonStr tx.tx_type.str ]

/-- Transaction.compute_hash: SHA-256 hex digest of the canonical
serialization of the signable fields (tx_id and signature excluded). -/
def Transaction.computeHash (tx : Transaction) : String := sha256hex (txSignableJson tx)

/-- Construction of a Transaction as in the source __init__: when no tx_id
is supplied the record receives its computed hash as id. -/
def mkTransaction (txId : Option String) (ty : TransactionType)
    (ins : List TransactionInput) (outs : List TransactionOutput)
    (ts : Nat) (sender : Option String) (sig : Option String) : Transaction :=
  let base : Transaction :=
    { tx_id := "", tx_type := ty, inputs := ins, outputs := outs,
      timestamp := ts, sender_address := sender, signature := sig }
  match txId with
  | some i => { base with tx_id := i }
  | none => { base with tx_id := base.computeHash }

/-- to_dict() of a Transaction (used when a block is serialized), keys in
sorted order: inputs, outputs, sender_address, signature, timestamp, tx_id,
tx_type. -/
def txDictJson (tx : Transaction) : String :=
  jObj [ "\"inputs\": " ++ jArr (tx.inputs.map txInputJson),
         "\"outputs\": " ++ jArr (tx.outputs.map txOutputJson),
         "\"sender_address\": " ++ jsonOptStr tx.sender_address,
         "\"signature\": " ++ jsonOptStr tx.signature,
         "\"timestamp\": " ++ floatJson tx.timestamp,
         "\"tx_id\": " ++ jsonStr tx.tx_id,
         "\"tx_type\": " ++ jsonStr tx.tx_type.str ]

-- ## block.py

/-- BlockHeader: version, index, previous_hash, timestamp, nonce,
difficulty, merkle_root. -/
structure BlockHeader : Type where
  version : String
  index : Nat
  previous_hash : String
  timestamp : Nat
  nonce : Nat
  difficulty : Nat
  merkle_root : String
deriving DecidableEq, Repr

/-- Block: header, transactions, optional hash (None until mined). -/
structure Block : Type where
  header : BlockHeader
  transactions : List Transaction
  hash : Option String
deriving DecidableEq, Repr

/-- header.dict() keys in sorted order: difficulty, index, merkle_root,
nonce, previous_hash, timestamp, version. -/
def headerJson (h : BlockHeader) : String :=
  jObj [ "\"difficulty\": " ++ Nat.repr h.difficulty,
         "\"index\": " ++ Nat.repr h.index,
         "\"merkle_root\": " ++ jsonStr h.merkle_root,
         "\"nonce\": " ++ Nat.repr h.nonce,
         "\"previous_hash\": " ++ jsonStr h.previous_hash,
         "\"timestamp\": " ++ floatJson h.timestamp,
         "\"version\": " ++ jsonStr h.version ]

/-- Block.compute_hash: SHA-256 hex digest of json.dumps of the dict with
keys header and transactions, sorted key order; the stored hash field is
not part of the payload. -/
def Block.computeHash (b : Block) : String :=
  sha256hex (jObj [ "\"header\": " ++ headerJson b.header,
                    "\"transactions\": " ++ jArr (b.transactions.map txDictJson) ])

/-- List-of-characters prefix test, modeling str.startswith. -/
def strStartsWith (s t : String) : Bool := List.isPrefixOf t.data s.data

/-- The difficulty target of Block.mine: the string of difficulty many
zero hex digits. -/
def zeroTarget (difficulty : Nat) : String := String.mk (List.replicate difficulty '0')

/-- The stored hash starts with the target (self.hash.startswith(target)
in the source; the hash field is always set when the check runs). -/
def checkHash (b : Block) (target : String) : Bool :=
  match b.hash with
  | none => false
  | some h => strStartsWith h target

/-- One nonce increment of the mining loop. -/
def bumpNonce (b : Block) : Block :=
  { b with header := { b.header with nonce := b.header.nonce + 1 } }

/-- The block state after one failed check of the mining loop: the nonce
is incremented and the hash recomputed. -/
def nextBlock (b : Block) : Block :=
  { bumpNonce b with hash := some (bumpNonce b).computeHash }

/-- The while loop of Block.mine, entered with the hash field freshly
computed; the fuel bounds the number of remaining nonce increments and
none models exhausting it (the source loops unboundedly). -/
def mineGo : Nat → Block → String → Option Block
  | 0, b, target => if checkHash b target then some b else none
  | f + 1, b, target =>
    if checkHash b target then some b
    else mineGo f (nextBlock b) target

/-- Block.mine(difficulty): set the hash from compute_hash, then search for
a nonce whose hash starts with difficulty many zero hex digits. -/
def Block.mineFuel (fuel : Nat) (b : Block) (difficulty : Nat) : Option Block :=
  mineGo fuel { b with hash := some b.computeHash } (zeroTarget difficulty)

-- ## blockchain.py

/-- UTXO entry as stored by _update_utxo_set: tx_id, output_index, output,
block_hash, spent. -/
structure UtxoEntry : Type where
  tx_id : String
  output_index : Nat
  output : TransactionOutput
  block_hash : String
  spent : Bool
deriving DecidableEq, Repr

/-- The key string of the UTXO store. -/
def utxoKey (txId : String) (idx : Nat) : String := txId ++ ":" ++ Nat.repr idx

/-- The UTXO store: an association list where a put prepends and a lookup
takes the first binding. -/
abbrev UtxoDb : Type := List (String × UtxoEntry)

def getUtxo (db : UtxoDb) (k : String) : Option UtxoEntry :=
  match db with
  | [] => none
  | (k2, u) :: rest => if k2 = k then some u else getUtxo rest k

def putUtxo (db : UtxoDb) (k : String) (u : UtxoEntry) : UtxoDb := (k, u) :: db

/-- In-memory ledger state of a Blockchain instance: the stored chain in
block_hashes order, the mempool, the known transaction id set and the UTXO
store. -/
structure ChainState : Type where
  blocks : List Block
  mempool : List Transaction
  knownTxIds : List String
  utxos : UtxoDb
deriving DecidableEq, Repr

/-- _verify_transaction_input reads utxo_data["output"].get("public_key").
The stored output dict comes from TransactionOutput.dict(), whose keys are
exactly amount, address and data; the lookup therefore yields None. -/
def outputGetPublicKey (o : TransactionOutput) : Option String :=
  none

/-- _verify_transaction_input: return False when the stored output carries
no public_key entry, and True otherwise without examining the signature
(the source comments mark the verification as a placeholder). -/
def verifyTransactionInput (tx : Transaction) (ti : TransactionInput)
    (u : UtxoEntry) : Bool :=
  match outputGetPublicKey u.output with
  | none => false
  | some _ => true

/-- The per-input loop of _validate_transaction: look the referenced UTXO
up (a miss raises KeyError, caught as rejection), reject when it is spent,
reject when the input verification fails, and otherwise accumulate the
referenced output amount. -/
def checkInputs (db : UtxoDb) (tx : Transaction) :
    List TransactionInput → Rat → Option Rat
  | [], acc => some acc
  | ti :: rest, acc =>
    match getUtxo db (utxoKey ti.tx_id ti.output_index) with
    | none => none
    | some u =>
      if u.spent then none
      else if verifyTransactionInput tx ti u then
        checkInputs db tx rest (acc + u.output.amount)
      else none

/-- Sum of the output amounts of a transaction. -/
def outputSum (tx : Transaction) : Rat := (tx.outputs.map (fun o => o.amount)).sum

/-- _validate_transaction: reject known tx_ids; for non-REWARD transactions
run the input checks and then the output-value coverage check, from which
only MEMORY transactions are exempt. -/
def validateTransaction (s : ChainState) (tx : Transaction) : Bool :=
  if tx.tx_id ∈ s.knownTxIds then false
  else if tx.tx_type = TransactionType.REWARD then true
  else
    match checkInputs s.utxos tx tx.inputs 0 with
    | none => false
    | some inputSum =>
      if tx.tx_type ≠ TransactionType.MEMORY ∧ inputSum < outputSum tx then false
      else true

/-- add_transaction (the submit_transaction operation): validate, then
append to the mempool and record the transaction id. -/
def addTransaction (s : ChainState) (tx : Transaction) : Bool × ChainState :=
  if validateTransaction s tx then
    (true, { s with mempool := s.mempool ++ [tx], knownTxIds := tx.tx_id :: s.knownTxIds })
  else (false, s)

-- ### Merkle root

/-- One level of _calculate_merkle_root: when the count is odd the last
hash is duplicated before pairing. -/
def padLevel (hs : List String) : List String :=
  if hs.length % 2 ≠ 0 then hs ++ [ hs.getLastD "" ] else hs

def pairHashes : List String → List String
  | a :: b :: rest => sha256hex (a ++ b) :: pairHashes rest
  | _ => []

def merkleStep (hs : List String) : List String := pairHashes (padLevel hs)

/-- The while loop of _calculate_merkle_root; the fuel bounds the number of
halving rounds and the list length is always a sufficient bound. -/
def merkleLoop : Nat → List String → List String
  | 0, hs => hs
  | f + 1, hs => if hs.length ≤ 1 then hs else merkleLoop f (merkleStep hs)

/-- _calculate_merkle_root: empty input yields the empty string, otherwise
the halving loop runs on the list of transaction ids until one hash is
left. -/
def calculateMerkleRoot (txs : List Transaction) : String :=
  if txs = [] then ""
  else
    let hs := txs.map (fun t => t.tx_id)
    (merkleLoop hs.length hs).headD ""

-- ### Mining and block storage

/-- _create_coinbase_transaction: a REWARD transaction with the fixed
reward amount 50 paid to the miner address and no inputs. -/
def createCoinbaseTransaction (miner : String) (now : Nat) : Transaction :=
  mkTransaction none TransactionType.REWARD []
    [ { amount := 50, address := miner, data := none } ] now none none

/-- UTXO effects of one transaction in a committed block: first every
output becomes a fresh unspent entry, then every referenced input entry is
marked spent when present. -/
def addOutputs (txId blockHash : String) : Nat → List TransactionOutput → UtxoDb → UtxoDb
  | _, [], db => db
  | i, o :: rest, db =>
    addOutputs txId blockHash (i + 1) rest
      (putUtxo db (utxoKey txId i)
        { tx_id := txId, output_index := i, output := o, block_hash := blockHash, spent := false })

def markSpent (db : UtxoDb) (ti : TransactionInput) : UtxoDb :=
  match getUtxo db (utxoKey ti.tx_id ti.output_index) with
  | none => db
  | some u => putUtxo db (utxoKey ti.tx_id ti.output_index) { u with spent := true }

def markInputsSpent : List TransactionInput → UtxoDb → UtxoDb
  | [], db => db
  | ti :: rest, db => markInputsSpent rest (markSpent db ti)

def applyTxUtxo (blockHash : String) (db : UtxoDb) (tx : Transaction) : UtxoDb :=
  markInputsSpent tx.inputs (addOutputs tx.tx_id blockHash 0 tx.outputs db)

def updateUtxoSet (db : UtxoDb) (b : Block) : UtxoDb :=
  b.transactions.foldl (applyTxUtxo (b.hash.getD "")) db

/-- _store_block: append the block to the stored chain and apply its UTXO
effects. -/
def storeBlock (s : ChainState) (b : Block) : ChainState :=
  { s with blocks := s.blocks ++ [b], utxos := updateUtxoSet s.utxos b }

/-- Fallback block for the head lookup; the chain of the source always
holds at least the genesis block. -/
def defaultBlock : Block :=
  { header := { version := "1.0", index := 0, previous_hash := "",
                timestamp := 0, nonce := 0, difficulty := 4, merkle_root := "" },
    transactions := [], hash := none }

/-- get_last_block: the block the head pointer names, the last stored one. -/
def lastBlock (s : ChainState) : Block := s.blocks.getLastD defaultBlock

/-- mine_block generalized over the seal difficulty; the source fixes the
difficulty to 4 (see mineBlock below).  An empty mempool is a no-op.  The
candidate block takes the successor index, links to the stored head hash,
and carries the coinbase transaction followed by the mempool snapshot; its
merkle root is computed, the block is sealed and stored, and the mempool
cleared.  Fuel exhaustion of the seal search returns none and models the
non-terminating source loop. -/
def mineBlockWith (difficulty fuel : Nat) (s : ChainState) (miner : String)
    (now : Nat) : Option Block × ChainState :=
  match s.mempool with
  | [] => (none, s)
  | _ :: _ =>
    let prev := lastBlock s
    let rewardTx := createCoinbaseTransaction miner now
    let txs := rewardTx :: s.mempool
    let candidate : Block :=
      { header := { version := "1.0", index := prev.header.index + 1,
                    previous_hash := prev.hash.getD "", timestamp := now,
                    nonce := 0, difficulty := 4,
                    merkle_root := calculateMerkleRoot txs },
        transactions := txs, hash := none }
    match Block.mineFuel fuel candidate difficulty with
    | none => (none, s)
    | some sealed => (some sealed, { storeBlock s sealed with mempool := [] })

/-- mine_block as in the source, sealing at difficulty 4. -/
def mineBlock (fuel : Nat) (s : ChainState) (miner : String) (now : Nat) :
    Option Block × ChainState :=
  mineBlockWith 4 fuel s miner now

-- ### Chain validation

/-- The three per-block checks of is_chain_valid, in source order: the
recomputed hash against the stored hash, the previous_hash link against the
stored predecessor hash, and the recomputed merkle root against the stored
merkle_root. -/
def checkBlock (prev cur : Block) : Bool :=
  if ¬ (some cur.computeHash = cur.hash) then false
  else if ¬ (some cur.header.previous_hash = prev.hash) then false
  else if ¬ (cur.header.merkle_root = calculateMerkleRoot cur.transactions) then false
  else true

def chainValidFrom : Block → List Block → Bool
  | _, [] => true
  | prev, cur :: rest => if checkBlock prev cur then chainValidFrom cur rest else false

/-- is_chain_valid: walk the stored chain from index 1 to the head and
short-circuit to false on the first failing block. -/
def isChainValid (blocks : List Block) : Bool :=
  match blocks with
  | [] => true
  | b :: rest => chainValidFrom b rest

-- ## wallet.py

/-- Payload signed by Wallet.create_transaction: json.dumps of the dict
with keys tx_type, outputs, timestamp, sender_address, in sorted key
order. -/
def walletSignPayload (tx : Transaction) : String :=
  jObj [ "\"outputs\": " ++ jArr (tx.outputs.map txOutputJson),
         "\"sender_address\": " ++ jsonOptStr tx.sender_address,
         "\"timestamp\": " ++ floatJson tx.timestamp,
         "\"tx_type\": " ++ jsonStr tx.tx_type.str ]

/-- Wallet.create_transaction: build a transaction with a single output to
the recipient and no inputs (the source leaves input selection to later
code that does not exist), then sign it.  The ECDSA signing primitive of
the external library is a parameter; no claim depends on the signature
value. -/
def walletCreateTransaction (signFn : String → String) (selfAddress : String)
    (recipient : String) (amount : Rat) (txType : TransactionType)
    (data : Option String) (now : Nat) : Transaction :=
  let output : TransactionOutput := { amount := amount, address := recipient, data := data }
  let tx := mkTransaction none txType [] [ output ] now (some selfAddress) none
  { tx with signature := some (signFn (walletSignPayload tx)) }

-- ## Concrete instances used by witnesses and counterexamples

/-- The empty ledger state. -/
def s0 : ChainState := { blocks := [], mempool := [], knownTxIds := [], utxos := [] }

/-- A transaction with a sixty-four hex digit id, for the merkle claims. -/
def tx3 : Transaction :=
  { tx_id := "aaaaaaaaaaaaaaaaaaaaaaaaaaaaaaaaaaaaaaaaaaaaaaaaaaaaaaaaaaaaaaaa",
    tx_type := TransactionType.MEMORY, inputs := [], outputs := [],
    timestamp := 0, sender_address := none, signature := none }

/-- A FEEDBACK transaction with no inputs and one value-bearing output. -/
def fb4 : Transaction :=
  { tx_id := "f1", tx_type := TransactionType.FEEDBACK, inputs := [],
    outputs := [ { amount := 1, address := "a", data := none } ],
    timestamp := 0, sender_address := none, signature := none }

/-- The same shape as fb4 with the MEMORY kind. -/
def mem4 : Transaction :=
  { tx_id := "m1", tx_type := TransactionType.MEMORY, inputs := [],
    outputs := [ { amount := 1, address := "a", data := none } ],
    timestamp := 0, sender_address := none, signature := none }

/-- A TRANSFER transaction with no inputs and one value-bearing output. -/
def tr4 : Transaction :=
  { tx_id := "t4", tx_type := TransactionType.TRANSFER, inputs := [],
    outputs := [ { amount := 1, address := "a", data := none } ],
    timestamp := 0, sender_address := none, signature := none }

/-- A REWARD transaction with an explicit id. -/
def rw5 : Transaction :=
  { tx_id := "r1", tx_type := TransactionType.REWARD, inputs := [],
    outputs := [ { amount := 50, address := "miner", data := none } ],
    timestamp := 0, sender_address := none, signature := none }

/-- The ledger state after rw5 is accepted from the empty state. -/
def s5 : ChainState := { blocks := [], mempool := [ rw5 ], knownTxIds := [ "r1" ], utxos := [] }

/-- A spent UTXO entry. -/
def u2 : UtxoEntry :=
  { tx_id := "t0", output_index := 0,
    output := { amount := 5, address := "a", data := none },
    block_hash := "bh", spent := true }

/-- A state whose store holds the spent entry u2 under its key. -/
def s2 : ChainState :=
  { blocks := [], mempool := [], knownTxIds := [], utxos := [ (utxoKey "t0" 0, u2) ] }

/-- An input referencing the entry u2. -/
def ti2 : TransactionInput := { tx_id := "t0", output_index := 0, signature := "sig" }

/-- A TRANSFER transaction spending the entry u2. -/
def tx2 : Transaction :=
  { tx_id := "x1", tx_type := TransactionType.TRANSFER, inputs := [ ti2 ],
    outputs := [], timestamp := 0, sender_address := none, signature := none }

/-- A block with empty transactions, for the sealing witness. -/
def b6 : Block :=
  { header := { version := "1.0", index := 0,
                previous_hash := "0000000000000000000000000000000000000000000000000000000000000000",
                timestamp := 0, nonce := 0, difficulty := 4, merkle_root := "" },
    transactions := [], hash := none }

/-- The block b6 with its hash field computed, the result of sealing b6 at
difficulty zero. -/
def b6m : Block := { b6 with hash := some b6.computeHash }

/-- A MEMORY transaction sitting in the mempool of the mining witness. -/
def m8 : Transaction :=
  { tx_id := "mm", tx_type := TransactionType.MEMORY, inputs := [], outputs := [],
    timestamp := 0, sender_address := none, signature := none }

/-- A state with one mempooled transaction and no blocks. -/
def s8 : ChainState := { blocks := [], mempool := [ m8 ], knownTxIds := [ "mm" ], utxos := [] }

/-- The candidate block mine_block assembles from s8 for miner "m" at time
seven. -/
def c8Cand : Block :=
  { header := { version := "1.0", index := (lastBlock s8).header.index + 1,
                previous_hash := (lastBlock s8).hash.getD "", timestamp := 7,
                nonce := 0, difficulty := 4,
                merkle_root := calculateMerkleRoot (createCoinbaseTransaction "m" 7 :: s8.mempool) },
    transactions := createCoinbaseTransaction "m" 7 :: s8.mempool, hash := none }

/-- The sealed candidate at difficulty zero. -/
def c8B : Block := { c8Cand with hash := some c8Cand.computeHash }

/-- The ledger state after the witness block is committed. -/
def c8S : ChainState := { storeBlock s8 c8B with mempool := [] }

/-- Genesis-shaped block of the chain-validation instances, before its hash
field is filled. -/
def gBase7 : Block :=
  { header := { version := "1.0", index := 0,
                previous_hash := "0000000000000000000000000000000000000000000000000000000000000000",
                timestamp := 0, nonce := 0, difficulty := 4, merkle_root := "" },
    transactions := [], hash := none }

/-- The stored genesis block, hash field set to its computed hash. -/
def g7 : Block := { gBase7 with hash := some gBase7.computeHash }

/-- The single transaction of the committed follow-up block. -/
def tx7 : Transaction :=
  { tx_id := "deadbeef", tx_type := TransactionType.MEMORY, inputs := [], outputs := [],
    timestamp := 0, sender_address := none, signature := none }

/-- The follow-up block before its hash field is filled: it links to the
stored genesis hash and carries the merkle root of its transactions. -/
def b1Base7 : Block :=
  { header := { version := "1.0", index := 1, previous_hash := gBase7.computeHash,
                timestamp := 0, nonce := 0, difficulty := 4,
                merkle_root := calculateMerkleRoot [ tx7 ] },
    transactions := [ tx7 ], hash := none }

/-- The stored follow-up block. -/
def b17 : Block := { b1Base7 with hash := some b1Base7.computeHash }

/-- A transaction planted into the stored genesis block by tampering. -/
def tamper7 : Transaction :=
  { tx_id := "feed0123", tx_type := TransactionType.MEMORY, inputs := [], outputs := [],
    timestamp := 0, sender_address := none, signature := none }

/-- The genesis block with its transaction list altered in storage; the
stored hash field is untouched. -/
def g7T : Block := { g7 with transactions := [ tamper7 ] }

/-- A transaction used to tamper with the follow-up block in the witness. -/
def tamperW : Transaction :=
  { tx_id := "0badc0de", tx_type := TransactionType.MEMORY, inputs := [], outputs := [],
    timestamp := 0, sender_address := none, signature := none }

/-- A REWARD transaction carrying a bogus input and a large minted output. -/
def rw10 : Transaction :=
  { tx_id := "rX", tx_type := TransactionType.REWARD,
    inputs := [ { tx_id := "ghost", output_index := 9, signature := "junk" } ],
    outputs := [ { amount := 1000000, address := "anyone", data := none } ],
    timestamp := 0, sender_address := none, signature := none }

/-- A trivial stand-in for the external ECDSA signing primitive. -/
def sign9 : String → String := fun _ => "sigbytes"

-- ## Helper lemmas

set_option maxRecDepth 100000

set_option maxHeartbeats 2000000

/-- The computed hash of a block ignores the stored hash field. -/
theorem computeHash_hash_irrel (b : Block) (h : Option String) :
    Block.computeHash { b with hash := h } = Block.computeHash b := rfl

/-- Sanity anchor: the embedding of hashlib.sha256 reproduces the standard
test vector for the input "abc". -/
theorem sha256hex_abc :
    sha256hex "abc" = "ba7816bf8f01cfea414140de5dae2223b00361a396177a9cb410ff61f20015ad" := by
  decide

/-- Any transaction list beginning with an input is rejected by the input
loop: a missing entry, a spent entry, and the always-failing placeholder
verification each map to none. -/
theorem checkInputs_cons_none (db : UtxoDb) (tx : Transaction)
    (ti : TransactionInput) (rest : List TransactionInput) (acc : Rat) :
    checkInputs db tx (ti :: rest) acc = none := by
  unfold checkInputs
  cases getUtxo db (utxoKey ti.tx_id ti.output_index) with
  | none => rfl
  | some u =>
    cases hu : u.spent with
    | true => simp [hu]
    | false => simp [hu, verifyTransactionInput, outputGetPublicKey]

/-- C1. The source never performs a cryptographic signature verification:
_verify_transaction_input returns False for every transaction, input and
stored UTXO entry, because the stored output record carries no public_key
field; the signature argument is never examined, so no signature, valid or
not, can ever be accepted, contradicting the specified real ECDSA check. -/
theorem verify_input_never_checks_signature :
    ∀ (tx : Transaction) (ti : TransactionInput) (u : UtxoEntry),
      verifyTransactionInput tx ti u = false := by
  intro tx ti u
  rfl

/-- C3 counterexample: for a single transaction with a sixty-four hex digit
id, the merkle root is not the hash of the doubled id: the loop of
_calculate_merkle_root exits before hashing when the level has one entry. -/
theorem merkle_single_not_duplicate_hash :
    calculateMerkleRoot [ tx3 ] ≠ sha256hex (tx3.tx_id ++ tx3.tx_id) := by
  decide

/-- C3 amended: the merkle root of a single-element transaction list is the
transaction id itself, and the duplicate-padding rule applies only to
levels holding at least two hashes, as in the three-element case. -/
theorem merkle_single_returns_txid :
    ∀ (tx t1 t2 t3 : Transaction),
      calculateMerkleRoot [ tx ] = tx.tx_id ∧
      calculateMerkleRoot [ t1, t2, t3 ] =
        sha256hex (sha256hex (t1.tx_id ++ t2.tx_id) ++ sha256hex (t3.tx_id ++ t3.tx_id)) := by
  intro tx t1 t2 t3
  refine ⟨rfl, ?_⟩
  with_unfolding_all rfl

/-- C4 counterexample: a FEEDBACK transaction with no inputs, an unknown
id and a single output of amount one fails the output-value coverage check
and is rejected, while the MEMORY transaction of the same shape is
accepted: FEEDBACK is not exempt from the coverage check. -/
theorem feedback_coverage_counterexample :
    addTransaction s0 fb4 = (false, s0) ∧ (addTransaction s0 mem4).1 = true := by
  constructor
  · have hval : validateTransaction s0 fb4 = false := by
      unfold validateTransaction
      rw [if_neg (by decide : ¬ (fb4.tx_id ∈ s0.knownTxIds)),
          if_neg (by decide : ¬ (fb4.tx_type = TransactionType.REWARD))]
      have hin : checkInputs s0.utxos fb4 fb4.inputs 0 = some 0 := by with_unfolding_all rfl
      rw [hin]
      show (if fb4.tx_type ≠ TransactionType.MEMORY ∧ (0 : Rat) < outputSum fb4 then false else true) = false
      rw [if_pos ⟨by decide, by norm_num [outputSum, fb4]⟩]
    unfold addTransaction
    rw [hval]
    simp
  · with_unfolding_all rfl

/-- C4 amended: for TRANSFER and FEEDBACK transactions whose inputs all
resolve, submit_transaction rejects when the referenced input sum is
strictly below the output sum; only MEMORY transactions are exempt from
this output-value coverage check. -/
theorem coverage_check_scope :
    ∀ (s : ChainState) (tx : Transaction) (m : Rat),
      ((tx.tx_type = TransactionType.TRANSFER ∨ tx.tx_type = TransactionType.FEEDBACK) →
        checkInputs s.utxos tx tx.inputs 0 = some m → m < outputSum tx →
        addTransaction s tx = (false, s)) ∧
      (tx.tx_type = TransactionType.MEMORY → tx.tx_id ∉ s.knownTxIds →
        checkInputs s.utxos tx tx.inputs 0 = some m →
        addTransaction s tx =
          (true, { s with mempool := s.mempool ++ [tx], knownTxIds := tx.tx_id :: s.knownTxIds })) := by
  intro s tx m
  constructor
  · intro hty hin hlt
    have hval : validateTransaction s tx = false := by
      unfold validateTransaction
      by_cases hk : tx.tx_id ∈ s.knownTxIds
      · rw [if_pos hk]
      · have hnr : ¬ tx.tx_type = TransactionType.REWARD := by
          rcases hty with h | h <;> rw [h] <;> simp
        rw [if_neg hk, if_neg hnr, hin]
        have hnm : ¬ tx.tx_type = TransactionType.MEMORY := by
          rcases hty with h | h <;> rw [h] <;> simp
        show (if tx.tx_type ≠ TransactionType.MEMORY ∧ m < outputSum tx then false else true) = false
        rw [if_pos ⟨hnm, hlt⟩]
    unfold addTransaction
    rw [hval]
    simp
  · intro hty hk hin
    have hval : validateTransaction s tx = true := by
      unfold validateTransaction
      have hnr : ¬ tx.tx_type = TransactionType.REWARD := by rw [hty]; simp
      rw [if_neg hk, if_neg hnr, hin]
      have hcond : ¬ (tx.tx_type ≠ TransactionType.MEMORY ∧ m < outputSum tx) := by
        intro hc
        exact hc.1 hty
      show (if tx.tx_type ≠ TransactionType.MEMORY ∧ m < outputSum tx then false else true) = true
      rw [if_neg hcond]
    unfold addTransaction
    rw [hval]
    simp

/-- C4 witness: the hypotheses of coverage_check_scope hold at the concrete
FEEDBACK and MEMORY instances and yield the computed rejection and
acceptance. -/
theorem coverage_check_scope_witness :
    (checkInputs s0.utxos fb4 fb4.inputs 0 = some 0 ∧ (0 : Rat) < outputSum fb4 ∧
      addTransaction s0 fb4 = (false, s0)) ∧
    (checkInputs s0.utxos mem4 mem4.inputs 0 = some 0 ∧
      addTransaction s0 mem4 =
        (true, { s0 with mempool := s0.mempool ++ [mem4], knownTxIds := mem4.tx_id :: s0.knownTxIds })) := by
  refine ⟨⟨by with_unfolding_all rfl, by norm_num [outputSum, fb4], ?_⟩,
    ⟨by with_unfolding_all rfl, ?_⟩⟩
  · exact (coverage_check_scope s0 fb4 0).1 (Or.inr rfl) (by with_unfolding_all rfl)
      (by norm_num [outputSum, fb4])
  · exact (coverage_check_scope s0 mem4 0).2 rfl (by decide) (by with_unfolding_all rfl)

/-- C5. Every transaction accepted by submit_transaction has its id
recorded in the known-id set of the new state, and any later submission
carrying the same id, in particular the identical transaction, is rejected
without state change. -/
theorem duplicate_txid_rejected :
    ∀ (s : ChainState) (tx : Transaction) (s' : ChainState),
      addTransaction s tx = (true, s') →
      tx.tx_id ∈ s'.knownTxIds ∧
      ∀ tx2 : Transaction, tx2.tx_id = tx.tx_id → addTransaction s' tx2 = (false, s') := by
  intro s tx s' h
  unfold addTransaction at h
  by_cases hv : validateTransaction s tx
  · rw [if_pos hv] at h
    have hs : ({ s with mempool := s.mempool ++ [tx], knownTxIds := tx.tx_id :: s.knownTxIds } : ChainState) = s' := (Prod.mk.injEq _ _ _ _).mp h |>.2
    constructor
    · rw [← hs]
      exact List.mem_cons_self _ _
    · intro tx2 h2
      have hmem : tx2.tx_id ∈ s'.knownTxIds := by
        rw [← hs, h2]
        exact List.mem_cons_self _ _
      have hval : validateTransaction s' tx2 = false := by
        unfold validateTransaction
        rw [if_pos hmem]
      unfold addTransaction
      rw [hval]
      simp
  · rw [if_neg hv] at h
    exact absurd ((Prod.mk.injEq _ _ _ _).mp h |>.1) (by simp)

/-- C5 witness: the REWARD transaction rw5 is accepted from the empty state
and its immediate resubmission is rejected without state change. -/
theorem duplicate_txid_rejected_witness :
    addTransaction s0 rw5 = (true, s5) ∧ addTransaction s5 rw5 = (false, s5) := by
  have h : addTransaction s0 rw5 = (true, s5) := by with_unfolding_all rfl
  exact ⟨h, (duplicate_txid_rejected s0 rw5 s5 h).2 rw5 rfl⟩

/-- C10. Every REWARD transaction whose id is not yet known is accepted
into the mempool with no UTXO lookup, no double-spend check, no signature
check and no coverage check: acceptance holds for arbitrary inputs,
outputs, amounts and UTXO stores. -/
theorem reward_tx_accepted_unchecked :
    ∀ (s : ChainState) (tx : Transaction),
      tx.tx_type = TransactionType.REWARD → tx.tx_id ∉ s.knownTxIds →
      addTransaction s tx =
        (true, { s with mempool := s.mempool ++ [tx], knownTxIds := tx.tx_id :: s.knownTxIds }) := by
  intro s tx hty hk
  have hval : validateTransaction s tx = true := by
    unfold validateTransaction
    rw [if_neg hk, if_pos hty]
  unfold addTransaction
  rw [hval]
  simp

/-- C10 witness: a REWARD transaction that spends a nonexistent UTXO with
an arbitrary signature and mints an output is nevertheless accepted. -/
theorem reward_tx_accepted_unchecked_witness :
    rw10.tx_type = TransactionType.REWARD ∧
    rw10.tx_id ∉ s0.knownTxIds ∧
    addTransaction s0 rw10 =
      (true, { s0 with mempool := s0.mempool ++ [ rw10 ], knownTxIds := rw10.tx_id :: s0.knownTxIds }) := by
  exact ⟨rfl, by decide, reward_tx_accepted_unchecked s0 rw10 rfl (by decide)⟩

/-- C2. Once a stored UTXO entry is spent, or when the referenced entry is
absent, every subsequently submitted non-REWARD transaction holding an
input that references it by key is rejected by submit_transaction with the
state unchanged. -/
theorem spent_or_missing_utxo_rejected :
    ∀ (s : ChainState) (tx : Transaction) (ti : TransactionInput),
      tx.tx_type ≠ TransactionType.REWARD →
      ti ∈ tx.inputs →
      (getUtxo s.utxos (utxoKey ti.tx_id ti.output_index) = none ∨
        ∃ u, getUtxo s.utxos (utxoKey ti.tx_id ti.output_index) = some u ∧ u.spent = true) →
      addTransaction s tx = (false, s) := by
  intro s tx ti hty hmem hbad
  have hval : validateTransaction s tx = false := by
    unfold validateTransaction
    by_cases hk : tx.tx_id ∈ s.knownTxIds
    · rw [if_pos hk]
    · rw [if_neg hk, if_neg hty]
      obtain ⟨hd, tl, hins⟩ : ∃ hd tl, tx.inputs = hd :: tl := by
        cases hins : tx.inputs with
        | nil => rw [hins] at hmem; cases hmem
        | cons a b => exact ⟨a, b, rfl⟩
      rw [hins, checkInputs_cons_none]
  unfold addTransaction
  rw [hval]
  simp

/-- C2 witness: the store of s2 holds the entry u2 with spent flag true
under the key of ti2, and the TRANSFER transaction tx2 spending it is
rejected without state change. -/
theorem spent_or_missing_utxo_rejected_witness :
    tx2.tx_type ≠ TransactionType.REWARD ∧
    ti2 ∈ tx2.inputs ∧
    getUtxo s2.utxos (utxoKey ti2.tx_id ti2.output_index) = some u2 ∧
    u2.spent = true ∧
    addTransaction s2 tx2 = (false, s2) := by
  refine ⟨by decide, by decide, by with_unfolding_all rfl, rfl, ?_⟩
  exact spent_or_missing_utxo_rejected s2 tx2 ti2 (by decide) (by decide)
    (Or.inr ⟨u2, by with_unfolding_all rfl, rfl⟩)

/-- C9. Wallet.create_transaction never attaches UTXO inputs: the built
transaction has an empty input list; consequently every TRANSFER it builds
for a strictly positive amount is rejected by submit_transaction, in every
ledger state, because the input sum zero cannot cover the positive output
sum. -/
theorem wallet_transfer_always_rejected :
    ∀ (signFn : String → String) (selfAddr recipient : String) (amount : Rat)
      (data : Option String) (now : Nat) (s : ChainState),
      (walletCreateTransaction signFn selfAddr recipient amount TransactionType.TRANSFER data now).inputs = [] ∧
      (0 < amount →
        addTransaction s (walletCreateTransaction signFn selfAddr recipient amount TransactionType.TRANSFER data now) = (false, s)) := by
  intro signFn selfAddr recipient amount data now s
  refine ⟨rfl, ?_⟩
  intro hamt
  have hos : outputSum (walletCreateTransaction signFn selfAddr recipient amount TransactionType.TRANSFER data now) = amount := by
    show ([ amount ] : List Rat).sum = amount
    simp
  have hval : validateTransaction s (walletCreateTransaction signFn selfAddr recipient amount TransactionType.TRANSFER data now) = false := by
    unfold validateTransaction
    by_cases hk : (walletCreateTransaction signFn selfAddr recipient amount TransactionType.TRANSFER data now).tx_id ∈ s.knownTxIds
    · rw [if_pos hk]
    · rw [if_neg hk, if_neg (by exact fun h => TransactionType.noConfusion h :
        ¬ (walletCreateTransaction signFn selfAddr recipient amount TransactionType.TRANSFER data now).tx_type = TransactionType.REWARD)]
      have hin : checkInputs s.utxos
          (walletCreateTransaction signFn selfAddr recipient amount TransactionType.TRANSFER data now)
          (walletCreateTransaction signFn selfAddr recipient amount TransactionType.TRANSFER data now).inputs 0 = some 0 := rfl
      rw [hin]
      show (if (walletCreateTransaction signFn selfAddr recipient amount TransactionType.TRANSFER data now).tx_type ≠ TransactionType.MEMORY ∧
          (0 : Rat) < outputSum (walletCreateTransaction signFn selfAddr recipient amount TransactionType.TRANSFER data now)
          then false else true) = false
      rw [if_pos ⟨fun h => TransactionType.noConfusion h, by rw [hos]; exact hamt⟩]
  unfold addTransaction
  rw [hval]
  simp

/-- C9 witness: for a concrete signing stand-in, addresses, the amount
five and the empty state, the built TRANSFER carries no inputs and is
rejected. -/
theorem wallet_transfer_always_rejected_witness :
    (walletCreateTransaction sign9 "a" "b" 5 TransactionType.TRANSFER none 0).inputs = [] ∧
    (0 : Rat) < 5 ∧
    addTransaction s0 (walletCreateTransaction sign9 "a" "b" 5 TransactionType.TRANSFER none 0) = (false, s0) := by
  refine ⟨(wallet_transfer_always_rejected sign9 "a" "b" 5 none 0 s0).1, by norm_num, ?_⟩
  exact (wallet_transfer_always_rejected sign9 "a" "b" 5 none 0 s0).2 (by norm_num)

/-- The mining loop invariant: entered with the hash field holding the
computed hash, any block it returns still stores its own computed hash and
passes the target prefix test. -/
theorem mineGo_inv :
    ∀ (f : Nat) (b : Block) (t : String) (b' : Block),
      b.hash = some b.computeHash → mineGo f b t = some b' →
      b'.hash = some b'.computeHash ∧ checkHash b' t = true := by
  intro f
  induction f with
  | zero =>
    intro b t b' hinv hgo
    unfold mineGo at hgo
    by_cases hc : checkHash b t
    · rw [if_pos hc] at hgo
      cases hgo
      exact ⟨hinv, hc⟩
    · rw [if_neg hc] at hgo
      cases hgo
  | succ f ih =>
    intro b t b' hinv hgo
    unfold mineGo at hgo
    by_cases hc : checkHash b t
    · rw [if_pos hc] at hgo
      cases hgo
      exact ⟨hinv, hc⟩
    · rw [if_neg hc] at hgo
      exact ih (nextBlock b) t b' rfl hgo

/-- C6. Whenever the proof-of-work search of Block.mine terminates, the
returned block stores exactly its own recomputed canonical hash (SHA-256 of
the canonical JSON of header and transactions at the final nonce), and that
hash starts with difficulty many zero hex digits. -/
theorem mine_terminates_hash_valid :
    ∀ (fuel : Nat) (b : Block) (d : Nat) (b' : Block),
      Block.mineFuel fuel b d = some b' →
      b'.hash = some b'.computeHash ∧
      strStartsWith b'.computeHash (zeroTarget d) = true := by
  intro fuel b d b' h
  unfold Block.mineFuel at h
  obtain ⟨h1, h2⟩ := mineGo_inv fuel { b with hash := some b.computeHash } (zeroTarget d) b' rfl h
  refine ⟨h1, ?_⟩
  unfold checkHash at h2
  rw [h1] at h2
  exact h2

/-- C6 witness: sealing the concrete block b6 at difficulty zero with one
unit of fuel terminates at once and yields b6m, which stores its computed
hash and trivially meets the empty target. -/
theorem mine_terminates_hash_valid_witness :
    Block.mineFuel 1 b6 0 = some b6m ∧
    (b6m.hash = some b6m.computeHash ∧
      strStartsWith b6m.computeHash (zeroTarget 0) = true) := by
  refine ⟨rfl, mine_terminates_hash_valid 1 b6 0 b6m rfl⟩

/-- Nonce search never touches the index, the previous hash link or the
transaction list of the block it seals. -/
theorem mineGo_fields :
    ∀ (f : Nat) (b : Block) (t : String) (b' : Block),
      mineGo f b t = some b' →
      b'.header.index = b.header.index ∧
      b'.header.previous_hash = b.header.previous_hash ∧
      b'.transactions = b.transactions := by
  intro f
  induction f with
  | zero =>
    intro b t b' hgo
    unfold mineGo at hgo
    by_cases hc : checkHash b t
    · rw [if_pos hc] at hgo
      cases hgo
      exact ⟨rfl, rfl, rfl⟩
    · rw [if_neg hc] at hgo
      cases hgo
  | succ f ih =>
    intro b t b' hgo
    unfold mineGo at hgo
    by_cases hc : checkHash b t
    · rw [if_pos hc] at hgo
      cases hgo
      exact ⟨rfl, rfl, rfl⟩
    · rw [if_neg hc] at hgo
      exact ih (nextBlock b) t b' hgo

/-- C8. For every seal difficulty and fuel, mining on an empty mempool is
a no-op returning no block and leaving the state untouched; and every
block mine_block returns carries the successor of the stored head index,
the stored head hash as its previous hash, and the freshly built coinbase
transaction (REWARD kind, no inputs, one output paying the fixed reward
fifty to the miner) followed by the mempool snapshot in order; mine_block
itself is the difficulty-four instance. -/
theorem mine_block_assembly :
    ∀ (d fuel : Nat) (s : ChainState) (miner : String) (now : Nat),
      (s.mempool = [] → mineBlockWith d fuel s miner now = (none, s)) ∧
      (∀ (b : Block) (s' : ChainState),
        mineBlockWith d fuel s miner now = (some b, s') →
        b.header.index = (lastBlock s).header.index + 1 ∧
        b.header.previous_hash = (lastBlock s).hash.getD "" ∧
        b.transactions = createCoinbaseTransaction miner now :: s.mempool ∧
        (createCoinbaseTransaction miner now).tx_type = TransactionType.REWARD ∧
        (createCoinbaseTransaction miner now).inputs = [] ∧
        (createCoinbaseTransaction miner now).outputs =
          [ { amount := 50, address := miner, data := none } ]) ∧
      mineBlock fuel s miner now = mineBlockWith 4 fuel s miner now := by
  intro d fuel s miner now
  refine ⟨?_, ?_, rfl⟩
  · intro hemp
    unfold mineBlockWith
    rw [hemp]
  · intro b s' h
    unfold mineBlockWith at h
    cases hm : s.mempool with
    | nil =>
      rw [hm] at h
      cases h
    | cons m ms =>
      rw [hm] at h
      simp only at h
      cases hmf : Block.mineFuel fuel
          { header := { version := "1.0", index := (lastBlock s).header.index + 1,
                        previous_hash := (lastBlock s).hash.getD "", timestamp := now,
                        nonce := 0, difficulty := 4,
                        merkle_root := calculateMerkleRoot (createCoinbaseTransaction miner now :: m :: ms) },
            transactions := createCoinbaseTransaction miner now :: m :: ms, hash := none } d with
      | none =>
        rw [hmf] at h
        cases h
      | some sealed =>
        rw [hmf] at h
        have h2 : ((some sealed : Option Block),
            ({ storeBlock s sealed with mempool := [] } : ChainState)) = (some b, s') := h
        have hb2 : sealed = b := Option.some.inj (congrArg Prod.fst h2)
        subst hb2
        have hfields := mineGo_fields fuel _ (zeroTarget d) sealed hmf
        refine ⟨hfields.1, hfields.2.1, ?_, rfl, rfl, rfl⟩
        exact hfields.2.2

/-- C8 witness: mining the empty state is a no-op, and mining the one
transaction state s8 at difficulty zero with one unit of fuel returns the
sealed candidate c8B with the committed state c8S, whose fields satisfy the
assembly properties. -/
theorem mine_block_assembly_witness :
    mineBlockWith 0 1 s0 "m" 7 = (none, s0) ∧
    mineBlockWith 0 1 s8 "m" 7 = (some c8B, c8S) ∧
    c8B.header.index = (lastBlock s8).header.index + 1 ∧
    c8B.header.previous_hash = (lastBlock s8).hash.getD "" ∧
    c8B.transactions = createCoinbaseTransaction "m" 7 :: s8.mempool := by
  have h : mineBlockWith 0 1 s8 "m" 7 = (some c8B, c8S) := by with_unfolding_all rfl
  have hprops := (mine_block_assembly 0 1 s8 "m" 7).2.1 c8B c8S h
  exact ⟨(mine_block_assembly 0 1 s0 "m" 7).1 rfl, h, hprops.1, hprops.2.1, hprops.2.2.1⟩

/-- Reading the just written position of List.set. -/
theorem getD_set_self {α : Type} (l : List α) (i : Nat) (x d : α) (h : i < l.length) :
    (l.set i x).getD i d = x := by
  induction l generalizing i with
  | nil => cases h
  | cons a as ih =>
    cases i with
    | zero => rfl
    | succ j => exact ih j (Nat.lt_of_succ_lt_succ h)

/-- Reading strictly below the written position of List.set. -/
theorem getD_set_lt {α : Type} (l : List α) (i j : Nat) (x d : α) (h : i < j) :
    (l.set j x).getD i d = l.getD i d := by
  induction l generalizing i j with
  | nil => rfl
  | cons a as ih =>
    cases j with
    | zero => cases h
    | succ j2 =>
      cases i with
      | zero => rfl
      | succ i2 => exact ih i2 j2 (Nat.lt_of_succ_lt_succ h)

/-- The chain walk from a fixed predecessor succeeds exactly when every
adjacent pair of the walked list passes the per-block checks. -/
theorem chainValidFrom_iff :
    ∀ (rest : List Block) (prev : Block),
      chainValidFrom prev rest = true ↔
        ∀ i : Nat, i + 1 < (prev :: rest).length →
          checkBlock ((prev :: rest).getD i defaultBlock)
            ((prev :: rest).getD (i + 1) defaultBlock) = true := by
  intro rest
  induction rest with
  | nil =>
    intro prev
    constructor
    · intro _ i hi
      exact absurd hi (by simp)
    · intro _
      rfl
  | cons c cs ih =>
    intro prev
    unfold chainValidFrom
    by_cases hc : checkBlock prev c = true
    · rw [if_pos hc, ih c]
      constructor
      · intro h i hi
        cases i with
        | zero => exact hc
        | succ j =>
          exact h j (by simp only [List.length_cons] at hi ⊢; omega)
      · intro h j hj
        exact h (j + 1) (by simp only [List.length_cons] at hj ⊢; omega)
    · rw [if_neg hc]
      constructor
      · intro habs
        cases habs
      · intro h
        exact absurd (h 0 (by simp)) hc

/-- A block passing the three checks stores the merkle root recomputed
over its transaction list. -/
theorem checkBlock_true_merkle (p c : Block) (h : checkBlock p c = true) :
    c.header.merkle_root = calculateMerkleRoot c.transactions := by
  unfold checkBlock at h
  by_cases h1 : some c.computeHash = c.hash
  · rw [if_neg (not_not_intro h1)] at h
    by_cases h2 : some c.header.previous_hash = p.hash
    · rw [if_neg (not_not_intro h2)] at h
      by_cases h3 : c.header.merkle_root = calculateMerkleRoot c.transactions
      · exact h3
      · rw [if_pos h3] at h
        cases h
    · rw [if_pos h2] at h
      cases h
  · rw [if_pos h1] at h
    cases h

/-- C7 counterexample: a stored two-block chain with correct hashes,
links and merkle roots passes is_chain_valid; altering the committed
genesis transaction list in storage leaves is_chain_valid true, because
the walk starts at block 1 and never checks the genesis block. -/
theorem genesis_tamper_undetected :
    isChainValid [ g7, b17 ] = true ∧
    g7T.transactions ≠ g7.transactions ∧
    isChainValid [ g7T, b17 ] = true := by
  have e1 : some b17.computeHash = b17.hash := rfl
  have e2 : some b17.header.previous_hash = g7.hash := rfl
  have e3 : b17.header.merkle_root = calculateMerkleRoot b17.transactions := rfl
  have e2T : some b17.header.previous_hash = g7T.hash := rfl
  have hcb : checkBlock g7 b17 = true := by
    unfold checkBlock
    rw [if_neg (not_not_intro e1), if_neg (not_not_intro e2), if_neg (not_not_intro e3)]
  have hcbT : checkBlock g7T b17 = true := by
    unfold checkBlock
    rw [if_neg (not_not_intro e1), if_neg (not_not_intro e2T), if_neg (not_not_intro e3)]
  refine ⟨?_, by exact fun h => List.noConfusion h, ?_⟩
  · show chainValidFrom g7 [ b17 ] = true
    unfold chainValidFrom
    rw [if_pos hcb]
    rfl
  · show chainValidFrom g7T [ b17 ] = true
    unfold chainValidFrom
    rw [if_pos hcbT]
    rfl

/-- C7 amended: is_chain_valid walks the chain from index 1 to the head
and returns true exactly when every block at index at least one passes the
three checks against its predecessor; altering the transaction list of a
stored block at index at least one so that the recomputed merkle root
differs from the stored one forces is_chain_valid to false; the genesis
block at index 0 is never checked (see the counterexample). -/
theorem chain_valid_iff_checks :
    ∀ (blocks : List Block),
      (isChainValid blocks = true ↔
        ∀ i : Nat, i + 1 < blocks.length →
          checkBlock (blocks.getD i defaultBlock) (blocks.getD (i + 1) defaultBlock) = true) ∧
      (∀ (i : Nat) (txs : List Transaction),
        i + 1 < blocks.length →
        calculateMerkleRoot txs ≠ (blocks.getD (i + 1) defaultBlock).header.merkle_root →
        isChainValid (blocks.set (i + 1)
          { blocks.getD (i + 1) defaultBlock with transactions := txs }) = false) := by
  have hiff : ∀ (bl : List Block), isChainValid bl = true ↔
      ∀ i : Nat, i + 1 < bl.length →
        checkBlock (bl.getD i defaultBlock) (bl.getD (i + 1) defaultBlock) = true := by
    intro bl
    cases bl with
    | nil =>
      constructor
      · intro _ i hi
        exact absurd hi (by simp)
      · intro _
        rfl
    | cons b rest => exact chainValidFrom_iff rest b
  intro blocks
  refine ⟨hiff blocks, ?_⟩
  intro i txs hlen hmr
  cases hval : isChainValid (blocks.set (i + 1)
      { blocks.getD (i + 1) defaultBlock with transactions := txs }) with
  | false => rfl
  | true =>
    exfalso
    have hlen2 : i + 1 < (blocks.set (i + 1)
        { blocks.getD (i + 1) defaultBlock with transactions := txs }).length := by
      rw [List.length_set]
      exact hlen
    have hpair := (hiff _).mp hval i hlen2
    have hgot : (blocks.set (i + 1)
        { blocks.getD (i + 1) defaultBlock with transactions := txs }).getD (i + 1) defaultBlock =
        { blocks.getD (i + 1) defaultBlock with transactions := txs } :=
      getD_set_self blocks (i + 1) _ defaultBlock hlen
    rw [hgot] at hpair
    exact hmr (checkBlock_true_merkle _ _ hpair).symm

/-- C7 witness: tampering with the transaction list of the block at index
one of the stored two-block chain, with a transaction whose merkle root
differs from the stored root, makes is_chain_valid return false. -/
theorem chain_valid_iff_checks_witness :
    (0 + 1 < ([ g7, b17 ] : List Block).length) ∧
    calculateMerkleRoot [ tamperW ] ≠
      (([ g7, b17 ] : List Block).getD 1 defaultBlock).header.merkle_root ∧
    isChainValid (([ g7, b17 ] : List Block).set 1
      { ([ g7, b17 ] : List Block).getD 1 defaultBlock with transactions := [ tamperW ] }) = false := by
  have e : calculateMerkleRoot [ tamperW ] = "0badc0de" := by with_unfolding_all rfl
  have e2 : (([ g7, b17 ] : List Block).getD 1 defaultBlock).header.merkle_root = "deadbeef" := by
    with_unfolding_all rfl
  have hmr : calculateMerkleRoot [ tamperW ] ≠
      (([ g7, b17 ] : List Block).getD 1 defaultBlock).header.merkle_root := by
    rw [e, e2]
    decide
  exact ⟨by decide, hmr, (chain_valid_iff_checks [ g7, b17 ]).2 0 [ tamperW ] (by decide) hmr⟩
